import Mathlib

/-!
Verification development for the sglang_auto_test repository.

Part 1 embeds `analyze_kernel_events` from `src/extrace_trace.py` as a pure
function over a JSON value model (durations are modelled as rationals, the
idealisation of the Python floats; `round(x, 3)` is modelled as decimal
round-half-to-even, Python's rounding mode).

Part 2 embeds the service-lifecycle harness `ServiceTestSuite` from
`src/run_multi_sglang_tests.py` (`start_service`, `wait_for_service_ready`,
`run_tests`, `stop_service`, `run`), `MultiServiceTester.run_serial` and the
`success_suites` count of `generate_report`, as explicit state passing over a
`SuiteState`, with the OS-dependent outcomes (spawn result, health probe,
subprocess execution, psutil teardown) supplied by an environment record.

Part 3 records, for claim C5, the suspension points of both harness files and
whether each carries an explicit timeout argument in the source.
-/

namespace SglangAutoTest

/-- JSON values, the data model of the trace file (`extrace_trace.py`).
`jnum` carries a rational, the idealisation of a Python int/float. -/
inductive JVal where
  | jnull
  | jbool (b : Bool)
  | jnum (q : ℚ)
  | jstr (s : String)
  | jarr (elems : List JVal)
  | jobj (fields : List (String × JVal))

/-- Python `d.get(key)` on a dict modelled as an association list
(first match; Python dict keys are unique). -/
def jlookup : List (String × JVal) → String → Option JVal
  | [], _ => none
  | (k, v) :: rest, key => if k = key then some v else jlookup rest key

/-- Python `isinstance(x, (int, float))` together with numeric coercion:
ints and floats are numbers, and `bool` is a subclass of `int` in Python
(`True` counts as `1`, `False` as `0`). Everything else is non-numeric. -/
def pyNum : JVal → Option ℚ
  | .jnum q => some q
  | .jbool b => some (if b then 1 else 0)
  | _ => none

/-- Python test `v == "kernel"`-style comparison of an optional JSON value
with a string literal: true exactly when the value is that very string. -/
def isStrVal (v : Option JVal) (s : String) : Bool :=
  match v with
  | some (.jstr t) => t = s
  | _ => false

/-- Accumulator of `analyze_kernel_events`: the `kernel_stats` defaultdict,
modelled as an insertion-ordered association list of
(kernel name, running total duration, count). -/
abbrev Stats := List (String × ℚ × ℕ)

/-- Lookup into the `kernel_stats` accumulator. -/
def lookupStat : Stats → String → Option (ℚ × ℕ)
  | [], _ => none
  | (k, t, c) :: rest, key => if k = key then some (t, c) else lookupStat rest key

/-- The two update statements of the loop body (`extrace_trace.py` lines 56-57):
`kernel_stats[name]["total_duration_us"] += duration` and
`kernel_stats[name]["count"] += 1`.  A defaultdict entry is created (at the
end, preserving insertion order) on first touch, starting from (0.0, 0). -/
def updateStat : Stats → String → ℚ → Stats
  | [], key, d => [(key, d, 1)]
  | (k, t, c) :: rest, key, d =>
    if k = key then (k, t + d, c + 1) :: rest
    else (k, t, c) :: updateStat rest key d

/-- The per-event filter of the loop (`extrace_trace.py` lines 39-53), for an
event that is a dict (so that `event.get` did not raise): the event
contributes (name, duration) iff `event.get("cat") == "kernel"`, it has a
`"name"` key holding a string, and a `"dur"` key holding an int/float
(including bool, a Python int subclass).  Returns `none` when the event is
skipped by a `continue`. -/
def eventKernelDur (ev : JVal) : Option (String × ℚ) :=
  match ev with
  | .jobj fields =>
    if isStrVal (jlookup fields "cat") "kernel" then
      match jlookup fields "name" with
      | some (.jstr n) =>
        match jlookup fields "dur" with
        | some d =>
          match pyNum d with
          | some q => some (n, q)
          | none => none
        | none => none
      | _ => none
    else none
  | _ => none

/-- One iteration of the event loop.  For a dict event, apply the filter and
update the accumulator.  For a non-dict event, `event.get("cat")` raises
`AttributeError` before the `isinstance(event, dict)` check of line 44 is
reached — that check is dead code — so the iteration throws, which the
enclosing `except Exception` of line 82 turns into an empty overall result. -/
def processEvent (st : Stats) (ev : JVal) : Except Unit Stats :=
  match ev with
  | .jobj _ =>
    .ok (match eventKernelDur ev with
         | some (n, d) => updateStat st n d
         | none => st)
  | _ => .error ()

/-- The event loop (`for event in trace_data["traceEvents"]`), propagating an
exception raised by any iteration. -/
def foldEvents : Stats → List JVal → Except Unit Stats
  | st, [] => .ok st
  | st, ev :: rest =>
    match processEvent st ev with
    | .ok st1 => foldEvents st1 rest
    | .error e => .error e

/-- Decimal round-half-to-even of a rational to an integer: the idealisation
of Python's `round` (banker's rounding). -/
def roundHalfEven (q : ℚ) : ℤ :=
  let f : ℤ := ⌊q⌋
  let frac : ℚ := q - (f : ℚ)
  if frac < 1 / 2 then f
  else if 1 / 2 < frac then f + 1
  else if f % 2 = 0 then f else f + 1

/-- Python `round(x, 3)`: round to 3 decimal digits, half to even. -/
def round3 (q : ℚ) : ℚ := ((roundHalfEven (q * 1000) : ℚ)) / 1000

/-- One row of the aggregator's result list (`extrace_trace.py` lines 66-71). -/
structure KernelRow where
  kernel : String
  total_duration_us : ℚ
  count : ℕ
  avg_duration_us : ℚ
deriving DecidableEq, Repr

/-- Row built from one accumulator entry (`extrace_trace.py` lines 63-71):
total and average are rounded to 3 digits at output time; the average divides
the unrounded running total by the count. -/
def mkRow (k : String) (t : ℚ) (c : ℕ) : KernelRow :=
  { kernel := k
    total_duration_us := round3 t
    count := c
    avg_duration_us := round3 (t / (c : ℚ)) }

/-- The result-building loop (`extrace_trace.py` lines 60-71): iterate the
accumulator in insertion order, keeping entries with positive count. -/
def buildRows : Stats → List KernelRow
  | [] => []
  | (k, t, c) :: rest =>
    if 0 < c then mkRow k t c :: buildRows rest else buildRows rest

/-- Stable insertion of a row into a list sorted by descending total: the row
passes over every row with a strictly larger total and stops in front of the
first row whose total is less than or equal to its own, so that among rows of
equal total the earlier-inserted one stays first (stability of Python's
`sorted`). -/
def insertRowDescStable (x : KernelRow) : List KernelRow → List KernelRow
  | [] => [x]
  | y :: ys =>
    if y.total_duration_us > x.total_duration_us then y :: insertRowDescStable x ys
    else x :: y :: ys

/-- Python `sorted(result, key=lambda x: x["total_duration_us"], reverse=True)`
(`extrace_trace.py` line 74): a stable sort by descending reported total. -/
def sortRowsDesc : List KernelRow → List KernelRow
  | [] => []
  | x :: xs => insertRowDescStable x (sortRowsDesc xs)

/-- The event-processing core of `analyze_kernel_events`
(`extrace_trace.py` lines 37-84), from the `traceEvents` list onward:
fold all events; on success, build and sort the rows; if an iteration raised
(non-dict event), the `except Exception` handler returns the empty list. -/
def analyze_kernel_events (traceEvents : List JVal) : List KernelRow :=
  match foldEvents [] traceEvents with
  | .ok st => sortRowsDesc (buildRows st)
  | .error _ => []

/-- Spec-side per-event duration contribution to kernel `k`: the event's
`dur` when it passes every filter with name `k`, else 0. -/
def contribDur (k : String) (ev : JVal) : ℚ :=
  match eventKernelDur ev with
  | some (n, d) => if n = k then d else 0
  | none => 0

/-- Spec-side per-event count contribution to kernel `k`. -/
def contribCount (k : String) (ev : JVal) : ℕ :=
  match eventKernelDur ev with
  | some (n, _) => if n = k then 1 else 0
  | none => 0

/-- Sum of the `dur` field over exactly the events of category "kernel"
named `k` (with a present, numeric `dur`). -/
def matchingSum (evs : List JVal) (k : String) : ℚ :=
  (evs.map (contribDur k)).sum

/-- Number of events of category "kernel" named `k` (with a present,
numeric `dur`). -/
def matchingCount (evs : List JVal) (k : String) : ℕ :=
  (evs.map (contribCount k)).sum

/-! Part 2: the service-lifecycle harness of `src/run_multi_sglang_tests.py`
(`ServiceTestSuite` and `MultiServiceTester`).  The OS is abstracted into an
environment record: the spawn/ready outcome of `start_service`, the health
probe's verdict, the result of each `subprocess.run`, and whether the psutil
teardown calls succeed.  The single-service variant in `src/run_sglang_test.py`
(`ServiceTester`) has the same `run`/`stop_service` control flow. -/

/-- Handle on the supervised subprocess: `running` is
`self.service_process.poll() is None`. -/
structure ProcHandle where
  running : Bool
deriving DecidableEq, Repr

/-- One entry of `self.test_results` (`run_multi_sglang_tests.py`
lines 162-167). -/
structure TestOutcome where
  returncode : Int
  stdout : String
  stderr : String
  success : Bool
deriving DecidableEq, Repr

/-- The mutable fields of a `ServiceTestSuite` object that the claims are
about (`__init__`, lines 25-32): the subprocess handle, the `success` flag,
and the recorded test results (insertion-ordered, as a Python dict). -/
structure SuiteState where
  service_process : Option ProcHandle
  success : Bool
  test_results : List (String × TestOutcome)
deriving DecidableEq, Repr

/-- State of a freshly constructed suite (`__init__` lines 25-32):
no subprocess, `success = False`, no test results. -/
def initState : SuiteState :=
  { service_process := none, success := false, test_results := [] }

/-- Observable outcome of `start_service` (lines 34-82):
`spawnedReady` — `Popen` succeeded and the method returned `True` (ready
pattern observed in time, lines 64-70, or no pattern configured and the fixed
10-second sleep elapsed, lines 74-78); `spawnedTimeout` — `Popen` succeeded
but the ready pattern never appeared before the timeout, so the method
returned `False` with the spawned process still attached and running
(lines 66-73); `spawnFailed` — an exception before the process was attached,
caught at lines 80-82, returning `False` with no process. -/
inductive StartResult where
  | spawnedReady
  | spawnedTimeout
  | spawnFailed
deriving DecidableEq, Repr

/-- Result of one `subprocess.run(test_script, shell=True, check=False,
capture_output=True, text=True)` call (lines 149-156): normal completion with
a return code and captured streams; a `subprocess.TimeoutExpired` (the handler
of lines 157-159 exists in the source even though no `timeout=` argument is
passed — line 155 is commented out); or some other exception that propagates
out of `run_tests`. -/
inductive ExecResult where
  | completed (returncode : Int) (stdout stderr : String)
  | timedOut
  | raised
deriving DecidableEq, Repr

/-- Environment feeding one `ServiceTestSuite.run`: what the OS does at each
interaction point. -/
structure RunEnv where
  startResult : StartResult
  healthConfigured : Bool
  healthOk : Bool
  exec : String → ExecResult
  psutilOk : Bool

/-- Embeds `start_service` (lines 34-82): returns its boolean result and the state
with the subprocess attached when `Popen` succeeded.  Note that on the
`spawnedTimeout` outcome the method returns `False` while the spawned process
is left attached and running. -/
def start_service (r : StartResult) (st : SuiteState) : Bool × SuiteState :=
  match r with
  | .spawnedReady => (true, { st with service_process := some ⟨true⟩ })
  | .spawnedTimeout => (false, { st with service_process := some ⟨true⟩ })
  | .spawnFailed => (false, st)

/-- Embeds `wait_for_service_ready` (lines 113-134): if no `health_check` URL is
configured the method returns `True` immediately (lines 115-117); otherwise it
polls and returns whether a 200 response arrived before the timeout. -/
def wait_for_service_ready (healthConfigured healthOk : Bool) : Bool :=
  if healthConfigured then healthOk else true

/-- The `for test_name, test_script in ...` loop of `run_tests`
(lines 144-185), carrying the `all_success` accumulator.  On normal completion
of a test the outcome is recorded in `self.test_results` and the loop
continues; on `subprocess.TimeoutExpired` the handler (lines 157-159) returns
`False` at once, recording nothing for that test and skipping all later
tests; any other exception propagates (`.error`, carrying the state, since
the results recorded so far live on the object). -/
def run_tests_loop (exec : String → ExecResult) :
    List (String × String) → Bool → SuiteState → Except SuiteState (Bool × SuiteState)
  | [], allSuccess, st => .ok (allSuccess, st)
  | t :: rest, allSuccess, st =>
    match exec t.2 with
    | .timedOut => .ok (false, st)
    | .raised => .error st
    | .completed rc out err =>
      run_tests_loop exec rest (allSuccess && decide (rc = 0))
        { st with
          test_results := st.test_results ++ [(t.1, ⟨rc, out, err, decide (rc = 0)⟩)] }

/-- Embeds `run_tests` (lines 136-187): if the service process is absent or has
already exited, return `False` without running anything (lines 138-140);
otherwise run the loop with `all_success = True`. -/
def run_tests (exec : String → ExecResult) (tests : List (String × String))
    (st : SuiteState) : Except SuiteState (Bool × SuiteState) :=
  match st.service_process with
  | none => .ok (false, st)
  | some p =>
    if p.running then run_tests_loop exec tests true st
    else .ok (false, st)

/-- Embeds `stop_service` (lines 189-237): if the process is absent or already
stopped, return `True` immediately (lines 191-193).  Otherwise terminate the
process tree; when the psutil operations succeed the process ends up stopped
and the method returns `True`; when they raise (`NoSuchProcess`,
`AccessDenied`, or any other exception, lines 232-237) the method returns
`False` and the handle keeps its previous state. -/
def stop_service (psutilOk : Bool) (st : SuiteState) : Bool × SuiteState :=
  match st.service_process with
  | none => (true, st)
  | some p =>
    if p.running then
      if psutilOk then (true, { st with service_process := some ⟨false⟩ })
      else (false, st)
    else (true, st)

/-- Whether the supervised process is absent or already exited. -/
def procStopped (st : SuiteState) : Bool :=
  match st.service_process with
  | none => true
  | some p => !p.running

/-- Result of `ServiceTestSuite.run`: the returned boolean, the final object
state, and how many times `stop_service` was invoked on the way out. -/
structure RunOutput where
  retval : Bool
  state : SuiteState
  stopCalls : ℕ
deriving DecidableEq, Repr

/-- Embeds `ServiceTestSuite.run` (lines 239-266): start the service — on failure
return `False` at once (lines 243-246, no `stop_service` call); wait for
readiness — on failure call `stop_service` and return `False` (lines 249-252);
run the tests, call `stop_service`, assign `self.success = test_success` and
return it (lines 255-261); if `run_tests` raised, the `except` block calls
`stop_service` and returns `False` (lines 263-266).  `start_service` and
`wait_for_service_ready` catch their own exceptions and return booleans, and
`stop_service` never raises, so the `except` block is reachable only from
`run_tests`. -/
def ServiceTestSuite_run (env : RunEnv) (tests : List (String × String))
    (st : SuiteState) : RunOutput :=
  let s1 := start_service env.startResult st
  if s1.1 = false then
    { retval := false, state := s1.2, stopCalls := 0 }
  else if wait_for_service_ready env.healthConfigured env.healthOk = false then
    { retval := false, state := (stop_service env.psutilOk s1.2).2, stopCalls := 1 }
  else
    match run_tests env.exec tests s1.2 with
    | .ok (testSuccess, st2) =>
      let st3 := (stop_service env.psutilOk st2).2
      { retval := testSuccess
        state := { st3 with success := testSuccess }
        stopCalls := 1 }
    | .error st2 =>
      { retval := false, state := (stop_service env.psutilOk st2).2, stopCalls := 1 }

/-- Embeds `MultiServiceTester.run_serial` (lines 294-303): run every suite (each a
freshly constructed object, `load_config` lines 285-286) in order, and return
the conjunction of their results; the loop body never breaks or returns
early.  Alongside Python's returned boolean we keep the list of per-suite
run outputs, in order. -/
def run_serial : List (RunEnv × List (String × String)) → Bool × List RunOutput
  | [] => (true, [])
  | c :: rest =>
    let out := ServiceTestSuite_run c.1 c.2 initState
    let r := run_serial rest
    (out.retval && r.1, out :: r.2)

/-- The `success_suites` field of `generate_report` (line 326):
`sum([1 for s in self.suites if s.success])`. -/
def success_suites (suites : List SuiteState) : ℕ :=
  (suites.filter (fun s => s.success)).length

/-- Boolean verdict of a `run_tests` result: the returned flag on normal
completion, failure if it raised. -/
def testsOkB : Except SuiteState (Bool × SuiteState) → Bool
  | .ok (b, _) => b
  | .error _ => false

/-- The full-lifecycle success condition for one suite: `start_service`
returned `True`, the readiness wait returned `True`, and `run_tests` completed
normally returning `True`. -/
def fullLifecycleSuccess (env : RunEnv) (tests : List (String × String)) : Bool :=
  decide (env.startResult = .spawnedReady) &&
  wait_for_service_ready env.healthConfigured env.healthOk &&
  testsOkB (run_tests env.exec tests (start_service env.startResult initState).2)

/-- Whether an `ExecResult` is a normal completion. -/
def isCompleted : ExecResult → Bool
  | .completed _ _ _ => true
  | _ => false

/-- The `TestOutcome` that `run_tests` records for a normally completed
command (lines 162-167); junk on the other constructors, which the theorems
rule out by hypothesis. -/
def outcomeOf : ExecResult → TestOutcome
  | .completed rc out err => ⟨rc, out, err, decide (rc = 0)⟩
  | .timedOut => ⟨0, "", "", true⟩
  | .raised => ⟨0, "", "", true⟩

/-! Part 3: the suspension points of the two harness files, for claim C5.
Each constructor names one blocking wait in the source; `hasExplicitTimeout`
records whether that wait carries an explicit timeout bound in the code. -/

/-- The blocking waits of `src/run_multi_sglang_tests.py` (prefix `multi_`)
and `src/run_sglang_test.py` (prefix `single_`). -/
inductive WaitSite where
  /-- The `start_service` ready-pattern loop, `run_multi_sglang_tests.py`
  lines 66-70: `while time.time() - start_time < self.config.get('timeout',
  300)` with `time.sleep(0.5)` per turn. -/
  | multi_readyPatternLoop
  /-- The `wait_for_service_ready` polling loop, lines 122-131, bounded by
  `self.config.get('timeout', 300)`. -/
  | multi_healthProbeLoop
  /-- each probe `requests.get(self.config['health_check'], timeout=5)`,
  line 124. -/
  | multi_healthProbeRequest
  /-- The call `subprocess.run(test_script, ...)` in `run_tests`, lines 149-156: the
  `timeout=300` argument is commented out (line 155), so the wait for the
  test subprocess has no bound. -/
  | multi_testSubprocessWait
  /-- The call `psutil.wait_procs(children, timeout=5)` in `stop_service`, line 210. -/
  | multi_stopChildrenWait
  /-- The call `self.service_process.wait(timeout=5)` in `stop_service`, line 220. -/
  | multi_stopMainGraceWait
  /-- The call `self.service_process.wait()` after `kill()` in `stop_service`,
  line 223: no timeout argument. -/
  | multi_stopAfterKillWait
  /-- The call `self.log_thread.join(timeout=2.0)` in `stop_service`, line 227. -/
  | multi_logThreadJoin
  /-- The `start_service` of `run_sglang_test.py`, lines 45-49: a blocking
  `readline` iteration over the service's stdout with no timeout — if the
  ready line never appears and the stream stays open, this blocks without
  bound. -/
  | single_readyPatternRead
  /-- The `wait_for_service_ready` polling loop of `run_sglang_test.py`,
  lines 58-67, bounded by `self.timeout`. -/
  | single_healthProbeLoop
  /-- each probe `requests.get(self.health_check_url)` of
  `run_sglang_test.py`, line 60: no per-request timeout, so one attempt can
  block without bound. -/
  | single_healthProbeRequest
  /-- The call `subprocess.run(test_script, ...)` of `run_sglang_test.py`,
  lines 84-90: no timeout argument. -/
  | single_testSubprocessWait
  /-- The call `psutil.wait_procs(all_procs, timeout=10)` of `run_sglang_test.py`,
  line 132. -/
  | single_stopWaitProcs
deriving DecidableEq, Repr

/-- Whether the wait at each suspension point carries an explicit timeout in
the source (see the constructor doc comments for the exact lines). -/
def hasExplicitTimeout : WaitSite → Bool
  | .multi_readyPatternLoop => true
  | .multi_healthProbeLoop => true
  | .multi_healthProbeRequest => true
  | .multi_testSubprocessWait => false
  | .multi_stopChildrenWait => true
  | .multi_stopMainGraceWait => true
  | .multi_stopAfterKillWait => false
  | .multi_logThreadJoin => true
  | .single_readyPatternRead => false
  | .single_healthProbeLoop => true
  | .single_healthProbeRequest => false
  | .single_testSubprocessWait => false
  | .single_stopWaitProcs => true

/-! Remaining helper definitions and the concrete inputs used by the
theorems. -/

/-- Running total recorded in the accumulator for kernel `key` (0 when the
key is absent). -/
def statTotal (st : Stats) (key : String) : ℚ :=
  match lookupStat st key with
  | some (t, _) => t
  | none => 0

/-- Count recorded in the accumulator for kernel `key` (0 when absent). -/
def statCount (st : Stats) (key : String) : ℕ :=
  match lookupStat st key with
  | some (_, c) => c
  | none => 0

/-- The kernel names present in the accumulator, in insertion order. -/
def statKeys (st : Stats) : List String := st.map (fun e => e.1)

/-- Final state of a `run_tests` result, whether it returned or raised. -/
def exceptState : Except SuiteState (Bool × SuiteState) → SuiteState
  | .ok (_, s) => s
  | .error s => s

/-- The example trace of the specification: three "kernel" events named
"matmul" with durations 10, 20, 15, plus one event of category "other" also
named "matmul". -/
def exampleTrace : List JVal :=
  [.jobj [("cat", .jstr "kernel"), ("name", .jstr "matmul"), ("dur", .jnum 10)],
   .jobj [("cat", .jstr "kernel"), ("name", .jstr "matmul"), ("dur", .jnum 20)],
   .jobj [("cat", .jstr "kernel"), ("name", .jstr "matmul"), ("dur", .jnum 15)],
   .jobj [("cat", .jstr "other"), ("name", .jstr "matmul"), ("dur", .jnum 5)]]

/-- A trace whose first event is the number 42 — not a map — followed by one
well-formed kernel event. -/
def c2FailingTrace : List JVal :=
  [.jnum 42,
   .jobj [("cat", .jstr "kernel"), ("name", .jstr "matmul"), ("dur", .jnum 10)]]

/-- The well-formed kernel event of `c2FailingTrace` on its own. -/
def c2GoodEventTrace : List JVal :=
  [.jobj [("cat", .jstr "kernel"), ("name", .jstr "matmul"), ("dur", .jnum 10)]]

/-- Two "kernel" events named "gemm" with durations 1 and 2: total 3,
count 2, average 3/2. -/
def gemmTrace : List JVal :=
  [.jobj [("cat", .jstr "kernel"), ("name", .jstr "gemm"), ("dur", .jnum 1)],
   .jobj [("cat", .jstr "kernel"), ("name", .jstr "gemm"), ("dur", .jnum 2)]]

/-- Environment in which the service process spawns but the ready pattern
never appears before the timeout: `start_service` returns `False` with the
process still running. -/
def envStartTimeout : RunEnv :=
  { startResult := .spawnedTimeout
    healthConfigured := false
    healthOk := false
    exec := fun _ => .completed 0 "" ""
    psutilOk := true }

/-- Suite state with a running supervised process and no results yet. -/
def readySt : SuiteState :=
  { service_process := some ⟨true⟩, success := false, test_results := [] }

/-- Execution oracle under which the command "t.sh" raises
`subprocess.TimeoutExpired` and every other command exits 0. -/
def execTimeoutOracle : String → ExecResult :=
  fun s => if s = "t.sh" then .timedOut else .completed 0 "" ""

/-- Execution oracle of the specification's example: the command "exit 1"
exits with code 1, every other command (in particular "exit 0") exits 0. -/
def execExitcodes : String → ExecResult :=
  fun s => if s = "exit 1" then .completed 1 "" "" else .completed 0 "" ""

/-- The test mapping of the specification's example. -/
def exampleTests : List (String × String) := [("a", "exit 0"), ("b", "exit 1")]

/-! Lemmas about the aggregator. -/

theorem updateStat_nil (k : String) (d : ℚ) : updateStat [] k d = [(k, d, 1)] := rfl

theorem updateStat_cons_self (k0 : String) (t0 : ℚ) (c0 : ℕ) (rest : Stats) (d : ℚ) :
    updateStat ((k0, t0, c0) :: rest) k0 d = (k0, t0 + d, c0 + 1) :: rest := by
  simp [updateStat]

theorem updateStat_cons_ne (k0 : String) (t0 : ℚ) (c0 : ℕ) (rest : Stats)
    (k : String) (d : ℚ) (h : k0 ≠ k) :
    updateStat ((k0, t0, c0) :: rest) k d = (k0, t0, c0) :: updateStat rest k d := by
  simp [updateStat, h]

theorem lookupStat_updateStat (st : Stats) (k key : String) (d : ℚ) :
    lookupStat (updateStat st k d) key =
      if k = key then some (statTotal st k + d, statCount st k + 1)
      else lookupStat st key := by
  induction st with
  | nil =>
    by_cases h : k = key <;>
      simp [updateStat, lookupStat, statTotal, statCount, h]
  | cons e rest ih =>
    obtain ⟨k0, t0, c0⟩ := e
    by_cases h0 : k0 = k
    · subst h0
      by_cases h : k0 = key <;>
        simp [updateStat, lookupStat, statTotal, statCount, h]
    · by_cases h : k0 = key
      · subst h
        have hk : ¬ k = k0 := fun hkk => h0 hkk.symm
        simp [updateStat, lookupStat, h0, hk]
      · simp only [updateStat, lookupStat, if_neg h0, if_neg h]
        rw [ih]
        by_cases hk : k = key <;>
          simp [statTotal, statCount, lookupStat, hk, h0, h]

theorem statTotal_updateStat (st : Stats) (k key : String) (d : ℚ) :
    statTotal (updateStat st k d) key =
      statTotal st key + (if k = key then d else 0) := by
  by_cases h : k = key
  · subst h
    simp [statTotal, lookupStat_updateStat]
  · simp [statTotal, lookupStat_updateStat, h]

theorem statCount_updateStat (st : Stats) (k key : String) (d : ℚ) :
    statCount (updateStat st k d) key =
      statCount st key + (if k = key then 1 else 0) := by
  by_cases h : k = key
  · subst h
    simp [statCount, lookupStat_updateStat]
  · simp [statCount, lookupStat_updateStat, h]

theorem processEvent_ok_stats (st st1 : Stats) (ev : JVal) (key : String)
    (h : processEvent st ev = .ok st1) :
    statTotal st1 key = statTotal st key + contribDur key ev ∧
    statCount st1 key = statCount st key + contribCount key ev := by
  cases ev with
  | jobj fields =>
    simp only [processEvent] at h
    cases hkd : eventKernelDur (.jobj fields) with
    | none =>
      rw [hkd] at h
      cases h
      simp [contribDur, contribCount, hkd]
    | some p =>
      obtain ⟨n, d⟩ := p
      rw [hkd] at h
      cases h
      refine ⟨?_, ?_⟩
      · rw [statTotal_updateStat]
        simp only [contribDur, hkd]
      · rw [statCount_updateStat]
        simp only [contribCount, hkd]
  | jnull => simp [processEvent] at h
  | jbool b => simp [processEvent] at h
  | jnum q => simp [processEvent] at h
  | jstr s => simp [processEvent] at h
  | jarr elems => simp [processEvent] at h

theorem foldEvents_stats : ∀ (evs : List JVal) (st st' : Stats),
    foldEvents st evs = .ok st' →
    ∀ key, statTotal st' key = statTotal st key + matchingSum evs key ∧
      statCount st' key = statCount st key + matchingCount evs key := by
  intro evs
  induction evs with
  | nil =>
    intro st st' h key
    simp only [foldEvents] at h
    cases h
    simp [matchingSum, matchingCount]
  | cons ev rest ih =>
    intro st st' h key
    simp only [foldEvents] at h
    cases hev : processEvent st ev with
    | error e => rw [hev] at h; cases h
    | ok st1 =>
      rw [hev] at h
      obtain ⟨ht, hc⟩ := ih st1 st' h key
      obtain ⟨ht1, hc1⟩ := processEvent_ok_stats st st1 ev key hev
      constructor
      · rw [ht, ht1]
        simp [matchingSum]
        ring
      · rw [hc, hc1]
        simp [matchingCount]
        omega

theorem statKeys_cons (e : String × ℚ × ℕ) (rest : Stats) :
    statKeys (e :: rest) = e.1 :: statKeys rest := rfl

theorem mem_statKeys_updateStat (st : Stats) (k key : String) (d : ℚ) :
    key ∈ statKeys (updateStat st k d) ↔ key ∈ statKeys st ∨ key = k := by
  induction st with
  | nil => simp [updateStat, statKeys]
  | cons e rest ih =>
    obtain ⟨k0, t0, c0⟩ := e
    by_cases h0 : k0 = k
    · subst h0
      rw [updateStat_cons_self, statKeys_cons, statKeys_cons]
      simp only [List.mem_cons]
      tauto
    · rw [updateStat_cons_ne _ _ _ _ _ _ h0, statKeys_cons, statKeys_cons]
      simp only [List.mem_cons, ih]
      tauto

theorem nodup_statKeys_updateStat (st : Stats) (k : String) (d : ℚ)
    (h : (statKeys st).Nodup) : (statKeys (updateStat st k d)).Nodup := by
  induction st with
  | nil => simp [updateStat, statKeys]
  | cons e rest ih =>
    obtain ⟨k0, t0, c0⟩ := e
    rw [statKeys_cons, List.nodup_cons] at h
    obtain ⟨hnotin, hnd⟩ := h
    by_cases h0 : k0 = k
    · subst h0
      rw [updateStat_cons_self, statKeys_cons, List.nodup_cons]
      exact ⟨hnotin, hnd⟩
    · rw [updateStat_cons_ne _ _ _ _ _ _ h0, statKeys_cons, List.nodup_cons]
      refine ⟨?_, ih hnd⟩
      rw [mem_statKeys_updateStat]
      push_neg
      exact ⟨hnotin, h0⟩

theorem processEvent_ok_nodup (st st1 : Stats) (ev : JVal)
    (h : processEvent st ev = .ok st1) (hn : (statKeys st).Nodup) :
    (statKeys st1).Nodup := by
  cases ev with
  | jobj fields =>
    simp only [processEvent] at h
    cases hkd : eventKernelDur (.jobj fields) with
    | none => rw [hkd] at h; cases h; exact hn
    | some p =>
      obtain ⟨n, d⟩ := p
      rw [hkd] at h
      cases h
      exact nodup_statKeys_updateStat st n d hn
  | jnull => simp [processEvent] at h
  | jbool b => simp [processEvent] at h
  | jnum q => simp [processEvent] at h
  | jstr s => simp [processEvent] at h
  | jarr elems => simp [processEvent] at h

theorem foldEvents_nodup : ∀ (evs : List JVal) (st st' : Stats),
    foldEvents st evs = .ok st' → (statKeys st).Nodup → (statKeys st').Nodup := by
  intro evs
  induction evs with
  | nil =>
    intro st st' h hn
    simp only [foldEvents] at h
    cases h
    exact hn
  | cons ev rest ih =>
    intro st st' h hn
    simp only [foldEvents] at h
    cases hev : processEvent st ev with
    | error e => rw [hev] at h; cases h
    | ok st1 =>
      rw [hev] at h
      exact ih st1 st' h (processEvent_ok_nodup st st1 ev hev hn)

theorem lookupStat_of_mem : ∀ (st : Stats) (k : String) (t : ℚ) (c : ℕ),
    (statKeys st).Nodup → (k, t, c) ∈ st → lookupStat st k = some (t, c) := by
  intro st
  induction st with
  | nil => intro k t c _ hmem; cases hmem
  | cons e rest ih =>
    obtain ⟨k0, t0, c0⟩ := e
    intro k t c hnd hmem
    simp only [statKeys, List.map_cons, List.nodup_cons] at hnd
    obtain ⟨hnotin, hnd⟩ := hnd
    rcases List.mem_cons.mp hmem with heq | hmem'
    · cases heq
      simp [lookupStat]
    · have hk0 : k0 ≠ k := by
        intro hkk
        subst hkk
        exact hnotin (by
          simpa [statKeys] using List.mem_map_of_mem (fun e => e.1) hmem')
      simp only [lookupStat, if_neg hk0]
      exact ih k t c hnd hmem'

theorem mem_buildRows : ∀ (st : Stats) (row : KernelRow),
    row ∈ buildRows st ↔ ∃ k t c, (k, t, c) ∈ st ∧ 0 < c ∧ row = mkRow k t c := by
  intro st
  induction st with
  | nil => intro row; simp [buildRows]
  | cons e rest ih =>
    obtain ⟨k0, t0, c0⟩ := e
    intro row
    by_cases hc : 0 < c0
    · simp only [buildRows, if_pos hc]
      constructor
      · intro h
        rcases List.mem_cons.mp h with heq | hmem
        · exact ⟨k0, t0, c0, List.mem_cons_self _ _, hc, heq⟩
        · obtain ⟨k, t, c, hmem', hc', heq⟩ := (ih row).mp hmem
          exact ⟨k, t, c, List.mem_cons_of_mem _ hmem', hc', heq⟩
      · rintro ⟨k, t, c, hmem, hc', heq⟩
        rcases List.mem_cons.mp hmem with h | h
        · simp only [Prod.mk.injEq] at h
          obtain ⟨rfl, rfl, rfl⟩ := h
          subst heq
          exact List.mem_cons_self _ _
        · exact List.mem_cons_of_mem _ ((ih row).mpr ⟨k, t, c, h, hc', heq⟩)
    · simp only [buildRows, if_neg hc]
      constructor
      · intro h
        obtain ⟨k, t, c, hmem', hc', heq⟩ := (ih row).mp h
        exact ⟨k, t, c, List.mem_cons_of_mem _ hmem', hc', heq⟩
      · rintro ⟨k, t, c, hmem, hc', heq⟩
        rcases List.mem_cons.mp hmem with h | h
        · simp only [Prod.mk.injEq] at h
          obtain ⟨rfl, rfl, rfl⟩ := h
          exact absurd hc' hc
        · exact (ih row).mpr ⟨k, t, c, h, hc', heq⟩

theorem mem_insertRowDescStable (x y : KernelRow) (l : List KernelRow) :
    y ∈ insertRowDescStable x l ↔ y = x ∨ y ∈ l := by
  induction l with
  | nil => simp [insertRowDescStable]
  | cons z zs ih =>
    simp only [insertRowDescStable]
    split
    · simp only [List.mem_cons, ih]
      tauto
    · simp only [List.mem_cons]

theorem mem_sortRowsDesc (l : List KernelRow) (y : KernelRow) :
    y ∈ sortRowsDesc l ↔ y ∈ l := by
  induction l with
  | nil => simp [sortRowsDesc]
  | cons x xs ih =>
    simp only [sortRowsDesc, mem_insertRowDescStable, ih, List.mem_cons]

theorem sorted_insertRowDescStable (x : KernelRow) (l : List KernelRow)
    (h : l.Pairwise (fun a b => b.total_duration_us ≤ a.total_duration_us)) :
    (insertRowDescStable x l).Pairwise
      (fun a b => b.total_duration_us ≤ a.total_duration_us) := by
  induction l with
  | nil => simp [insertRowDescStable]
  | cons z zs ih =>
    rw [List.pairwise_cons] at h
    obtain ⟨hz, hzs⟩ := h
    simp only [insertRowDescStable]
    split
    · rename_i hgt
      rw [List.pairwise_cons]
      refine ⟨?_, ih hzs⟩
      intro b hb
      rcases (mem_insertRowDescStable x b zs).mp hb with hbx | hbz
      · subst hbx
        exact le_of_lt hgt
      · exact hz b hbz
    · rename_i hle
      push_neg at hle
      rw [List.pairwise_cons]
      refine ⟨?_, List.pairwise_cons.mpr ⟨hz, hzs⟩⟩
      intro b hb
      rcases List.mem_cons.mp hb with hbz | hbz
      · subst hbz
        exact hle
      · exact le_trans (hz b hbz) hle

theorem sorted_sortRowsDesc (l : List KernelRow) :
    (sortRowsDesc l).Pairwise
      (fun a b => b.total_duration_us ≤ a.total_duration_us) := by
  induction l with
  | nil => simp [sortRowsDesc]
  | cons x xs ih => exact sorted_insertRowDescStable x _ ih

theorem analyze_row_char (evs : List JVal) (row : KernelRow)
    (hrow : row ∈ analyze_kernel_events evs) :
    ∃ st', foldEvents [] evs = .ok st' ∧
      row.kernel ∈ statKeys st' ∧
      0 < row.count ∧
      row.count = matchingCount evs row.kernel ∧
      row.total_duration_us = round3 (matchingSum evs row.kernel) ∧
      row.avg_duration_us =
        round3 (matchingSum evs row.kernel / (matchingCount evs row.kernel : ℚ)) := by
  cases hfold : foldEvents [] evs with
  | error e =>
    have h2 : analyze_kernel_events evs = [] := by
      unfold analyze_kernel_events
      rw [hfold]
    rw [h2] at hrow
    cases hrow
  | ok st =>
    have h2 : analyze_kernel_events evs = sortRowsDesc (buildRows st) := by
      unfold analyze_kernel_events
      rw [hfold]
    rw [h2] at hrow
    rw [mem_sortRowsDesc, mem_buildRows] at hrow
    obtain ⟨k, t, c, hmem, hc, hrow⟩ := hrow
    have hnodup : (statKeys st).Nodup :=
      foldEvents_nodup evs [] st hfold (by simp [statKeys])
    have hlook := lookupStat_of_mem st k t c hnodup hmem
    obtain ⟨ht, hcnt⟩ := foldEvents_stats evs [] st hfold k
    have ht0 : statTotal st k = t := by simp [statTotal, hlook]
    have hc0 : statCount st k = c := by simp [statCount, hlook]
    have htm : t = matchingSum evs k := by
      rw [← ht0, ht]
      simp [statTotal, lookupStat]
    have hcm : c = matchingCount evs k := by
      rw [← hc0, hcnt]
      simp [statCount, lookupStat]
    subst hrow
    refine ⟨st, rfl, ?_, hc, ?_, ?_, ?_⟩
    · simpa [statKeys, mkRow] using List.mem_map_of_mem (fun e => e.1) hmem
    · simpa [mkRow] using hcm
    · simp [mkRow, htm]
    · simp [mkRow, htm, hcm]

/-! Lemmas about the harness. -/

theorem stop_service_success_inv (ok : Bool) (st : SuiteState) :
    ((stop_service ok st).2).success = st.success := by
  obtain ⟨sp, su, tr⟩ := st
  cases sp with
  | none => rfl
  | some p =>
    obtain ⟨b⟩ := p
    cases b <;> cases ok <;> rfl

theorem run_tests_loop_success_inv (exec : String → ExecResult) :
    ∀ (tests : List (String × String)) (acc : Bool) (st : SuiteState),
    (exceptState (run_tests_loop exec tests acc st)).success = st.success := by
  intro tests
  induction tests with
  | nil => intro acc st; rfl
  | cons t rest ih =>
    intro acc st
    simp only [run_tests_loop]
    cases exec t.2 with
    | completed rc out err => exact ih _ _
    | timedOut => rfl
    | raised => rfl

theorem run_tests_success_inv (exec : String → ExecResult)
    (tests : List (String × String)) (st : SuiteState) :
    (exceptState (run_tests exec tests st)).success = st.success := by
  obtain ⟨sp, su, tr⟩ := st
  cases sp with
  | none => rfl
  | some p =>
    obtain ⟨b⟩ := p
    cases b
    · rfl
    · exact run_tests_loop_success_inv exec tests true ⟨some ⟨true⟩, su, tr⟩

theorem run_state_success (env : RunEnv) (tests : List (String × String)) :
    (ServiceTestSuite_run env tests initState).state.success =
      fullLifecycleSuccess env tests := by
  unfold ServiceTestSuite_run fullLifecycleSuccess
  cases env.startResult with
  | spawnFailed => simp [start_service, initState]
  | spawnedTimeout => simp [start_service, initState]
  | spawnedReady =>
    simp only [start_service]
    cases wait_for_service_ready env.healthConfigured env.healthOk with
    | false =>
      simp [stop_service_success_inv, initState]
    | true =>
      cases hrt : run_tests env.exec tests
          { initState with service_process := some ⟨true⟩ } with
      | ok p =>
        obtain ⟨b, st2⟩ := p
        simp [testsOkB]
      | error st2 =>
        have hsucc : st2.success = false := by
          have h := run_tests_success_inv env.exec tests
            { initState with service_process := some ⟨true⟩ }
          rw [hrt] at h
          exact h
        simp [testsOkB, stop_service_success_inv, hsucc]

theorem run_tests_loop_completed (exec : String → ExecResult) :
    ∀ (tests : List (String × String)) (acc : Bool) (st : SuiteState),
    (∀ t ∈ tests, isCompleted (exec t.2) = true) →
    run_tests_loop exec tests acc st =
      .ok (acc && tests.all (fun t => (outcomeOf (exec t.2)).success),
        { st with test_results :=
            st.test_results ++ tests.map (fun t => (t.1, outcomeOf (exec t.2))) }) := by
  intro tests
  induction tests with
  | nil =>
    intro acc st _
    simp [run_tests_loop]
  | cons t rest ih =>
    intro acc st hcomp
    have ht := hcomp t (List.mem_cons_self _ _)
    have hrest : ∀ t' ∈ rest, isCompleted (exec t'.2) = true :=
      fun t' ht' => hcomp t' (List.mem_cons_of_mem _ ht')
    cases hex : exec t.2 with
    | timedOut => rw [hex] at ht; simp [isCompleted] at ht
    | raised => rw [hex] at ht; simp [isCompleted] at ht
    | completed rc out err =>
      simp only [run_tests_loop, hex]
      rw [ih _ _ hrest]
      simp only [List.all_cons, List.map_cons, hex, outcomeOf]
      simp [Bool.and_assoc, List.append_assoc]

/-! Claim theorems. -/

/-- C1, counterexample: in the environment where the service process spawns
but the ready pattern times out, `ServiceTestSuite.run` returns `False`
without ever invoking `stop_service` (`stopCalls = 0`) and with the spawned
process still attached and running — refuting the claim that `stop()` is
invoked exactly once under any exit path including failures at the Starting
phase. -/
theorem C1_counterexample :
    (ServiceTestSuite_run envStartTimeout [] initState).stopCalls = 0 ∧
    (ServiceTestSuite_run envStartTimeout [] initState).state.service_process =
      some ⟨true⟩ ∧
    (ServiceTestSuite_run envStartTimeout [] initState).retval = false := by
  decide

/-- C1, amended: `ServiceTestSuite.run` invokes `stop_service` exactly once
on every path where `start_service` returned `True` (readiness failure, test
success, test failure, and internal exception during testing), and zero times
when `start_service` returned `False` — including the case where the process
was spawned but the ready signal timed out, in which the process can be left
running. -/
theorem C1_amended (env : RunEnv) (tests : List (String × String)) (st : SuiteState) :
    (ServiceTestSuite_run env tests st).stopCalls =
      if env.startResult = StartResult.spawnedReady then 1 else 0 := by
  unfold ServiceTestSuite_run
  cases env.startResult with
  | spawnFailed => simp [start_service]
  | spawnedTimeout => simp [start_service]
  | spawnedReady =>
    simp only [start_service]
    cases wait_for_service_ready env.healthConfigured env.healthOk with
    | false => simp
    | true =>
      cases run_tests env.exec tests { st with service_process := some ⟨true⟩ } with
      | ok p =>
        obtain ⟨b, st2⟩ := p
        simp
      | error st2 => simp

/-- C1, amended, witness: in an environment whose `start_service` succeeds
and whose only test fails, `stop_service` is invoked exactly once. -/
theorem C1_amended_witness :
    (ServiceTestSuite_run
      { startResult := .spawnedReady, healthConfigured := false, healthOk := false,
        exec := fun _ => .completed 1 "" "", psutilOk := true }
      [("a", "x")] initState).stopCalls =
      if ({ startResult := .spawnedReady, healthConfigured := false,
            healthOk := false, exec := fun _ => .completed 1 "" "",
            psutilOk := true } : RunEnv).startResult = StartResult.spawnedReady
      then 1 else 0 :=
  C1_amended _ [("a", "x")] initState

/-- C2: the claim is right and the code is wrong.  In
`analyze_kernel_events`, `event.get("cat")` (line 39) runs before the
`isinstance(event, dict)` check (line 44, dead code), so a non-map event
raises `AttributeError`, the blanket `except Exception` (line 82) returns
`[]`, and the whole run is emptied.  First conjunct: the trace
`[42, {cat: "kernel", name: "matmul", dur: 10}]` yields `[]` — the valid
matmul event is lost.  Second conjunct: without the non-map event the same
matmul event yields its row, as the claim requires. -/
theorem C2_theorem :
    analyze_kernel_events c2FailingTrace = [] ∧
    analyze_kernel_events c2GoodEventTrace =
      [{ kernel := "matmul", total_duration_us := 10, count := 1,
         avg_duration_us := 10 }] := by
  with_unfolding_all decide

/-- C3: every reported row's total is `round3` of the sum of the `dur` field
over exactly the events of category "kernel" with that row's kernel name
(and the row's count is the number of those events); and the
specification's example trace — three "kernel"/"matmul" events of durations
10, 20, 15 plus one "other"/"matmul" event — yields exactly the single row
`{kernel := "matmul", total := 45, count := 3, avg := 15}`. -/
theorem C3_theorem :
    (∀ (evs : List JVal) (row : KernelRow), row ∈ analyze_kernel_events evs →
      row.total_duration_us = round3 (matchingSum evs row.kernel) ∧
      row.count = matchingCount evs row.kernel) ∧
    analyze_kernel_events exampleTrace =
      [{ kernel := "matmul", total_duration_us := 45, count := 3,
         avg_duration_us := 15 }] := by
  constructor
  · intro evs row hrow
    obtain ⟨st, _, _, _, hcount, htotal, _⟩ := analyze_row_char evs row hrow
    exact ⟨htotal, hcount⟩
  · with_unfolding_all decide

/-- C3, witness: the matmul row of the example trace is reported, and the
general statement instantiated at it gives total = round3(45) and
count = 3. -/
theorem C3_witness :
    ((⟨"matmul", 45, 3, 15⟩ : KernelRow) ∈ analyze_kernel_events exampleTrace) ∧
    ((⟨"matmul", 45, 3, 15⟩ : KernelRow).total_duration_us =
        round3 (matchingSum exampleTrace (⟨"matmul", 45, 3, 15⟩ : KernelRow).kernel) ∧
      (⟨"matmul", 45, 3, 15⟩ : KernelRow).count =
        matchingCount exampleTrace (⟨"matmul", 45, 3, 15⟩ : KernelRow).kernel) :=
  ⟨by with_unfolding_all decide,
   C3_theorem.1 exampleTrace ⟨"matmul", 45, 3, 15⟩ (by with_unfolding_all decide)⟩

/-- C4, counterexample: under the oracle where the command "t.sh" raises
`subprocess.TimeoutExpired`, `run_tests` on the mapping
`[("a", "t.sh"), ("b", "ok.sh")]` returns `False` with the state unchanged:
test "a" is not recorded as failed (`test_results` stays empty) and test "b"
is never attempted — refuting the claim that a test exceeding the per-test
timeout is recorded as failed and execution continues to the next test. -/
theorem C4_counterexample :
    run_tests execTimeoutOracle [("a", "t.sh"), ("b", "ok.sh")] readySt =
      .ok (false, readySt) ∧
    readySt.test_results = [] := ⟨rfl, rfl⟩

/-- C4, amended: when every test command completes (with any exit code) and
the service process is running, `run_tests` records an outcome for every
test in order — success exactly for exit code 0 — and returns the
conjunction of the per-test successes, so an ordinary test failure never
aborts the suite.  However, a `subprocess.TimeoutExpired` would make
`run_tests` return `False` at once without recording that test or running
later ones (and no timeout is actually passed to `subprocess.run`; the
argument is commented out). -/
theorem C4_amended (exec : String → ExecResult) (tests : List (String × String))
    (st : SuiteState) (hrun : st.service_process = some ⟨true⟩)
    (hcomp : ∀ t ∈ tests, isCompleted (exec t.2) = true) :
    run_tests exec tests st =
      .ok (tests.all (fun t => (outcomeOf (exec t.2)).success),
        { st with test_results :=
            st.test_results ++ tests.map (fun t => (t.1, outcomeOf (exec t.2))) }) := by
  obtain ⟨sp, su, tr⟩ := st
  simp only at hrun
  subst hrun
  have h := run_tests_loop_completed exec tests true ⟨some ⟨true⟩, su, tr⟩ hcomp
  exact h.trans (by simp)

/-- C4, amended, witness: the specification's example — tests
`[("a", "exit 0"), ("b", "exit 1")]` — yields outcome a with success true
and exit code 0, outcome b with success false and exit code 1, overall
result false, with both tests attempted. -/
theorem C4_witness :
    (readySt.service_process = some ⟨true⟩) ∧
    (∀ t ∈ exampleTests, isCompleted (execExitcodes t.2) = true) ∧
    run_tests execExitcodes exampleTests readySt =
      .ok (false,
        { readySt with test_results :=
            [("a", ⟨0, "", "", true⟩), ("b", ⟨1, "", "", false⟩)] }) := by
  refine ⟨rfl, by decide, ?_⟩
  have h := C4_amended execExitcodes exampleTests readySt rfl (by decide)
  exact h.trans (by rfl)

/-- C5, counterexample: not every suspension point of the harness carries an
explicit timeout — the wait for a test subprocess in
`ServiceTestSuite.run_tests` has none (the `timeout=300` argument of
`subprocess.run` is commented out). -/
theorem C5_counterexample : ¬ ∀ s : WaitSite, hasExplicitTimeout s = true := by
  intro h
  exact absurd (h .multi_testSubprocessWait) (by decide)

/-- C5, amended: the ready-pattern loop, the health-probe loop and its
per-request timeout, and the graceful-stop waits of the multi-service
harness are bounded with explicit timeouts, as are the health-probe loop and
stop wait of the single-service harness; but the test-subprocess waits of
both harnesses, the post-kill `wait()` of the multi-service stop, the
blocking ready-pattern `readline` loop of the single-service harness, and
its per-request health probe carry no timeout at all. -/
theorem C5_amended :
    hasExplicitTimeout .multi_readyPatternLoop = true ∧
    hasExplicitTimeout .multi_healthProbeLoop = true ∧
    hasExplicitTimeout .multi_healthProbeRequest = true ∧
    hasExplicitTimeout .multi_stopChildrenWait = true ∧
    hasExplicitTimeout .multi_stopMainGraceWait = true ∧
    hasExplicitTimeout .multi_logThreadJoin = true ∧
    hasExplicitTimeout .single_healthProbeLoop = true ∧
    hasExplicitTimeout .single_stopWaitProcs = true ∧
    hasExplicitTimeout .multi_testSubprocessWait = false ∧
    hasExplicitTimeout .multi_stopAfterKillWait = false ∧
    hasExplicitTimeout .single_readyPatternRead = false ∧
    hasExplicitTimeout .single_healthProbeRequest = false ∧
    hasExplicitTimeout .single_testSubprocessWait = false := by
  decide

/-- C6: every reported row has a positive count, and its average equals
`round3` of the unrounded accumulated total divided by the count — the
quotient is taken once over the final sums, and rounding happens only at
output time (the dividend is the raw `matchingSum`, not the rounded
reported total). -/
theorem C6_theorem (evs : List JVal) (row : KernelRow)
    (hrow : row ∈ analyze_kernel_events evs) :
    0 < row.count ∧
    row.avg_duration_us =
      round3 (matchingSum evs row.kernel / (matchingCount evs row.kernel : ℚ)) := by
  obtain ⟨st, _, _, hc, _, _, havg⟩ := analyze_row_char evs row hrow
  exact ⟨hc, havg⟩

/-- C6, witness: on the trace with two "kernel"/"gemm" events of durations
1 and 2, the reported row has count 2 and average round3(3/2) = 3/2. -/
theorem C6_witness :
    ((⟨"gemm", 3, 2, 3 / 2⟩ : KernelRow) ∈ analyze_kernel_events gemmTrace) ∧
    (0 < (⟨"gemm", 3, 2, 3 / 2⟩ : KernelRow).count ∧
      (⟨"gemm", 3, 2, 3 / 2⟩ : KernelRow).avg_duration_us =
        round3 (matchingSum gemmTrace (⟨"gemm", 3, 2, 3 / 2⟩ : KernelRow).kernel /
          (matchingCount gemmTrace (⟨"gemm", 3, 2, 3 / 2⟩ : KernelRow).kernel : ℚ))) :=
  ⟨by with_unfolding_all decide,
   C6_theorem gemmTrace ⟨"gemm", 3, 2, 3 / 2⟩ (by with_unfolding_all decide)⟩

/-- C7: for every input trace, the aggregator's result list is sorted by
reported total duration descending — each adjacent pair satisfies
`total[i+1] ≤ total[i]`. -/
theorem C7_theorem (evs : List JVal) :
    List.Chain' (fun a b => b.total_duration_us ≤ a.total_duration_us)
      (analyze_kernel_events evs) := by
  unfold analyze_kernel_events
  cases foldEvents [] evs with
  | error e => simp
  | ok st => exact List.Pairwise.chain' (sorted_sortRowsDesc (buildRows st))

/-- C8: `stop_service` is idempotent.  First conjunct: on a state whose
process is absent or already exited it returns `True` immediately with the
state unchanged, whatever the psutil environment does.  Second conjunct:
after any `stop_service` call that returned `True`, a second consecutive
call also returns `True`, in any psutil environment. -/
theorem C8_theorem :
    (∀ (psutilOk : Bool) (st : SuiteState),
      procStopped st = true → stop_service psutilOk st = (true, st)) ∧
    (∀ (ok1 ok2 : Bool) (st : SuiteState),
      (stop_service ok1 st).1 = true →
      (stop_service ok2 (stop_service ok1 st).2).1 = true) := by
  constructor
  · intro ok st h
    obtain ⟨sp, su, tr⟩ := st
    cases sp with
    | none => rfl
    | some p =>
      obtain ⟨b⟩ := p
      cases b
      · rfl
      · exact absurd h (by simp [procStopped])
  · intro ok1 ok2 st h
    obtain ⟨sp, su, tr⟩ := st
    cases sp with
    | none => rfl
    | some p =>
      obtain ⟨b⟩ := p
      cases b
      · rfl
      · cases ok1
        · exact absurd h (by simp [stop_service])
        · rfl

/-- C8, witness: on the never-started state, `stop_service` returns `True`
with the state unchanged; and on a running-process state, after a first
successful `stop_service` a second call (here even with failing psutil)
returns `True`. -/
theorem C8_witness :
    (procStopped initState = true ∧
      stop_service true initState = (true, initState)) ∧
    ((stop_service true readySt).1 = true ∧
      (stop_service false (stop_service true readySt).2).1 = true) :=
  ⟨⟨by decide, C8_theorem.1 true initState (by decide)⟩,
   ⟨by decide, C8_theorem.2 true false readySt (by decide)⟩⟩

/-- C9: the `success` flag is initialised to `False`; after `run`, it is
`True` exactly when the full lifecycle succeeded — `start_service` returned
`True`, the readiness wait returned `True`, and `run_tests` completed
normally returning `True` — so a suite failing at startup, at readiness, or
via an internal exception keeps `success = False`; and the report's
`success_suites` counts exactly the suites whose full lifecycle succeeded. -/
theorem C9_theorem :
    initState.success = false ∧
    (∀ (env : RunEnv) (tests : List (String × String)),
      (ServiceTestSuite_run env tests initState).state.success =
        fullLifecycleSuccess env tests) ∧
    (∀ cfgs : List (RunEnv × List (String × String)),
      success_suites
          (cfgs.map (fun c => (ServiceTestSuite_run c.1 c.2 initState).state)) =
        (cfgs.filter (fun c => fullLifecycleSuccess c.1 c.2)).length) := by
  refine ⟨rfl, run_state_success, ?_⟩
  intro cfgs
  induction cfgs with
  | nil => rfl
  | cons c rest ih =>
    simp only [List.map_cons, success_suites, List.filter_cons] at ih ⊢
    rw [run_state_success c.1 c.2]
    cases fullLifecycleSuccess c.1 c.2
    · simpa using ih
    · simpa using ih

/-- C10: `run_serial` attempts every configured suite — its output list is
the map of `ServiceTestSuite_run` over all configurations, with no
short-circuit — and returns `True` exactly when every suite's run returned
`True`. -/
theorem C10_theorem (cfgs : List (RunEnv × List (String × String))) :
    (run_serial cfgs).2 =
      cfgs.map (fun c => ServiceTestSuite_run c.1 c.2 initState) ∧
    ((run_serial cfgs).1 = true ↔
      ∀ c ∈ cfgs, (ServiceTestSuite_run c.1 c.2 initState).retval = true) := by
  induction cfgs with
  | nil => exact ⟨rfl, by simp [run_serial]⟩
  | cons c rest ih =>
    obtain ⟨ih1, ih2⟩ := ih
    constructor
    · simp only [run_serial, List.map_cons]
      rw [ih1]
    · simp only [run_serial, Bool.and_eq_true, List.forall_mem_cons, ih2]

end SglangAutoTest
